import Mathlib

/-!
Verification of the flight-performance engine of `flight_calculator.cpp`
(XplaneFlightData).  The C++ `double` arithmetic is modelled over `ℝ`;
every definition below mirrors one function or constant of the source.
-/

namespace xplane_mfd.calc

noncomputable section

open Real

/-- `DEG_TO_RAD` constant of the source. -/
def DEG_TO_RAD : ℝ := Real.pi / 180

/-- `RAD_TO_DEG` constant of the source. -/
def RAD_TO_DEG : ℝ := 180 / Real.pi

/-- `GRAVITY` constant of the source (m/s²). -/
def GRAVITY : ℝ := 9.80665

/-- `KTS_TO_MS` constant of the source. -/
def KTS_TO_MS : ℝ := 0.514444

/-- `FT_TO_M` constant of the source. -/
def FT_TO_M : ℝ := 0.3048

/-- `M_TO_FT` constant of the source. -/
def M_TO_FT : ℝ := 3.28084

/-- The `Vector2D` struct of the source. -/
structure Vector2D where
  x : ℝ
  y : ℝ

/-- `Vector2D::magnitude`. -/
def Vector2D.magnitude (v : Vector2D) : ℝ :=
  Real.sqrt (v.x * v.x + v.y * v.y)

/-- `Vector2D::operator-`. -/
def Vector2D.sub (v w : Vector2D) : Vector2D :=
  ⟨v.x - w.x, v.y - w.y⟩

/-- Model of C `std::atan2(y, x)` on reals (principal angle of the point
`(x, y)` measured from the positive x-axis, in `(-π, π]`). -/
def atan2 (y x : ℝ) : ℝ :=
  if 0 < x then Real.arctan (y / x)
  else if x < 0 then
    (if 0 ≤ y then Real.arctan (y / x) + Real.pi else Real.arctan (y / x) - Real.pi)
  else
    (if 0 < y then Real.pi / 2 else if y < 0 then -(Real.pi / 2) else 0)

/-- First loop of `normalize_angle`: `while (angle < 0) angle += 360;`. -/
def add_loop (a : ℝ) : ℝ :=
  if a < 0 then add_loop (a + 360) else a
termination_by (⌈-a / 360⌉).toNat
decreasing_by
  have h1 : -(a + 360) / 360 = -a / 360 - 1 := by ring
  have h2 : (0 : ℝ) < -a / 360 := by
    apply div_pos _ (by norm_num)
    linarith
  have h3 : 1 ≤ ⌈-a / 360⌉ := Int.ceil_pos.mpr h2
  have h4 : ⌈-(a + 360) / 360⌉ = ⌈-a / 360⌉ - 1 := by
    rw [h1, Int.ceil_sub_one]
  rw [h4]
  omega

/-- Second loop of `normalize_angle`: `while (angle >= 360) angle -= 360;`. -/
def sub_loop (a : ℝ) : ℝ :=
  if 360 ≤ a then sub_loop (a - 360) else a
termination_by (⌊a / 360⌋).toNat
decreasing_by
  have h1 : (a - 360) / 360 = a / 360 - 1 := by ring
  have h2 : (1 : ℝ) ≤ a / 360 := by
    rw [le_div_iff₀ (by norm_num : (0:ℝ) < 360)]
    linarith
  have h3 : 1 ≤ ⌊a / 360⌋ := by
    exact_mod_cast Int.le_floor.mpr (by exact_mod_cast h2)
  have h4 : ⌊(a - 360) / 360⌋ = ⌊a / 360⌋ - 1 := by
    rw [h1, Int.floor_sub_one]
  rw [h4]
  omega

/-- `normalize_angle` of the source: both correction loops in sequence. -/
def normalize_angle (angle : ℝ) : ℝ :=
  sub_loop (add_loop angle)

/-- Iteration count of the first loop of `normalize_angle`. -/
def add_steps (a : ℝ) : ℕ :=
  if a < 0 then add_steps (a + 360) + 1 else 0
termination_by (⌈-a / 360⌉).toNat
decreasing_by
  have h1 : -(a + 360) / 360 = -a / 360 - 1 := by ring
  have h2 : (0 : ℝ) < -a / 360 := by
    apply div_pos _ (by norm_num)
    linarith
  have h3 : 1 ≤ ⌈-a / 360⌉ := Int.ceil_pos.mpr h2
  have h4 : ⌈-(a + 360) / 360⌉ = ⌈-a / 360⌉ - 1 := by
    rw [h1, Int.ceil_sub_one]
  rw [h4]
  omega

/-- Iteration count of the second loop of `normalize_angle`. -/
def sub_steps (a : ℝ) : ℕ :=
  if 360 ≤ a then sub_steps (a - 360) + 1 else 0
termination_by (⌊a / 360⌋).toNat
decreasing_by
  have h1 : (a - 360) / 360 = a / 360 - 1 := by ring
  have h2 : (1 : ℝ) ≤ a / 360 := by
    rw [le_div_iff₀ (by norm_num : (0:ℝ) < 360)]
    linarith
  have h3 : 1 ≤ ⌊a / 360⌋ := by
    exact_mod_cast Int.le_floor.mpr (by exact_mod_cast h2)
  have h4 : ⌊(a - 360) / 360⌋ = ⌊a / 360⌋ - 1 := by
    rw [h1, Int.floor_sub_one]
  rw [h4]
  omega

/-- Total loop-iteration count of `normalize_angle` on input `a`. -/
def norm_steps (a : ℝ) : ℕ :=
  add_steps a + sub_steps (add_loop a)

/-- Closed-form single reduction of an angle into `[0, 360)`
(the `a - 360*floor(a/360)` form named in the design notes). -/
def mod360 (a : ℝ) : ℝ := a - 360 * ⌊a / 360⌋

end

theorem mod360_nonneg (a : ℝ) : 0 ≤ mod360 a := by
  have h := Int.fract_nonneg (a / 360)
  unfold mod360
  rw [Int.fract] at h
  nlinarith [h]

theorem mod360_lt (a : ℝ) : mod360 a < 360 := by
  have h := Int.fract_lt_one (a / 360)
  unfold mod360
  rw [Int.fract] at h
  nlinarith [h]

theorem mod360_add_360 (a : ℝ) : mod360 (a + 360) = mod360 a := by
  unfold mod360
  have h1 : (a + 360) / 360 = a / 360 + 1 := by ring
  rw [h1, Int.floor_add_one]
  push_cast
  ring

theorem mod360_sub_360 (a : ℝ) : mod360 (a - 360) = mod360 a := by
  unfold mod360
  have h1 : (a - 360) / 360 = a / 360 - 1 := by ring
  rw [h1, Int.floor_sub_one]
  push_cast
  ring

theorem mod360_eq_self (a : ℝ) (h0 : 0 ≤ a) (h1 : a < 360) : mod360 a = a := by
  unfold mod360
  have : ⌊a / 360⌋ = 0 := by
    apply Int.floor_eq_zero_iff.mpr
    constructor
    · positivity
    · rw [div_lt_one (by norm_num : (0:ℝ) < 360)]
      exact h1
  rw [this]
  norm_num

theorem add_loop_spec (a : ℝ) : add_loop a = if a < 0 then mod360 a else a := by
  induction a using add_loop.induct with
  | case1 a h ih =>
    rw [add_loop, if_pos h, ih, if_pos h]
    by_cases h2 : a + 360 < 0
    · rw [if_pos h2, mod360_add_360]
    · rw [if_neg h2]
      rw [show (mod360 a) = mod360 (a + 360) from (mod360_add_360 a).symm]
      rw [mod360_eq_self (a + 360) (by push_neg at h2; linarith [h2]) (by linarith)]
  | case2 a h =>
    rw [add_loop, if_neg h, if_neg h]

theorem sub_loop_spec (a : ℝ) (h0 : 0 ≤ a) : sub_loop a = mod360 a := by
  induction a using sub_loop.induct with
  | case1 a h ih =>
    rw [sub_loop, if_pos h, ih (by linarith)]
    rw [mod360_sub_360]
  | case2 a h =>
    rw [sub_loop, if_neg h]
    exact (mod360_eq_self a h0 (by push_neg at h; linarith [h])).symm

theorem normalize_angle_spec (a : ℝ) : normalize_angle a = mod360 a := by
  unfold normalize_angle
  rw [add_loop_spec]
  by_cases h : a < 0
  · rw [if_pos h, sub_loop_spec _ (mod360_nonneg a)]
    exact mod360_eq_self _ (mod360_nonneg a) (mod360_lt a)
  · rw [if_neg h]
    exact sub_loop_spec a (not_lt.mp h)

theorem add_steps_spec (a : ℝ) : add_steps a = (⌈-a / 360⌉).toNat := by
  induction a using add_steps.induct with
  | case1 a h ih =>
    rw [add_steps, if_pos h, ih]
    have h1 : -(a + 360) / 360 = -a / 360 - 1 := by ring
    have h2 : (0 : ℝ) < -a / 360 := by
      apply div_pos _ (by norm_num)
      linarith
    have h3 : 1 ≤ ⌈-a / 360⌉ := Int.ceil_pos.mpr h2
    rw [h1, Int.ceil_sub_one]
    omega
  | case2 a h =>
    rw [add_steps, if_neg h]
    have h2 : -a / 360 ≤ 0 := by
      apply div_nonpos_of_nonpos_of_nonneg _ (by norm_num)
      push_neg at h
      linarith
    have h3 : ⌈-a / 360⌉ ≤ 0 := Int.ceil_le.mpr (by exact_mod_cast h2)
    omega

theorem sub_steps_spec (a : ℝ) : sub_steps a = (⌊a / 360⌋).toNat := by
  induction a using sub_steps.induct with
  | case1 a h ih =>
    rw [sub_steps, if_pos h, ih]
    have h1 : (a - 360) / 360 = a / 360 - 1 := by ring
    have h2 : (1 : ℝ) ≤ a / 360 := by
      rw [le_div_iff₀ (by norm_num : (0:ℝ) < 360)]
      linarith
    have h3 : 1 ≤ ⌊a / 360⌋ := by
      exact_mod_cast Int.le_floor.mpr (by exact_mod_cast h2)
    rw [h1, Int.floor_sub_one]
    omega
  | case2 a h =>
    rw [sub_steps, if_neg h]
    have h2 : a / 360 < 1 := by
      rw [div_lt_one (by norm_num : (0:ℝ) < 360)]
      push_neg at h
      linarith [h]
    have h3 : ⌊a / 360⌋ ≤ 0 := by
      have := Int.floor_lt.mpr (show a / 360 < ((1:ℤ):ℝ) by exact_mod_cast h2)
      omega
    omega

theorem norm_steps_spec (a : ℝ) :
    norm_steps a = (⌈-a / 360⌉).toNat + (⌊add_loop a / 360⌋).toNat := by
  unfold norm_steps
  rw [add_steps_spec, sub_steps_spec]

noncomputable section

/-- The `WindData` struct of the source. -/
structure WindData where
  speed_kts : ℝ
  direction_from : ℝ
  headwind : ℝ
  crosswind : ℝ
  gust_factor : ℝ

/-- The gust-analysis block of `calculate_wind_vector` (lines 138-159):
copies the history into a buffer (an identity on the values), takes the
running maximum starting from `0` and the running sum, and returns
`max_ias - avg_ias`; `0` for an empty history. -/
def gust_from_history (ias_history : List ℝ) : ℝ :=
  if ias_history.isEmpty then 0
  else
    (ias_history.foldl (fun max_ias v => if v > max_ias then v else max_ias) 0) -
      (ias_history.foldl (fun sum_ias v => sum_ias + v) 0) / ias_history.length

/-- `calculate_wind_vector` of the source. -/
def calculate_wind_vector (tas_kts gs_kts heading_deg track_deg : ℝ)
    (ias_history : List ℝ) : WindData :=
  let psi_rad := heading_deg * DEG_TO_RAD
  let chi_rad := track_deg * DEG_TO_RAD
  let air_vec : Vector2D := ⟨tas_kts * Real.sin psi_rad, tas_kts * Real.cos psi_rad⟩
  let ground_vec : Vector2D := ⟨gs_kts * Real.sin chi_rad, gs_kts * Real.cos chi_rad⟩
  let wind_vec := ground_vec.sub air_vec
  let speed_kts := wind_vec.magnitude
  let wind_to_rad := atan2 wind_vec.x wind_vec.y
  let direction_from := normalize_angle (wind_to_rad * RAD_TO_DEG + 180)
  let rel_wind_rad := (direction_from + 180 - track_deg) * DEG_TO_RAD
  { speed_kts := speed_kts
    direction_from := direction_from
    headwind := -speed_kts * Real.cos rel_wind_rad
    crosswind := speed_kts * Real.sin rel_wind_rad
    gust_factor := gust_from_history ias_history }

/-- The `EnvelopeMargins` struct of the source. -/
structure EnvelopeMargins where
  stall_margin_pct : ℝ
  vmo_margin_pct : ℝ
  mmo_margin_pct : ℝ
  min_margin_pct : ℝ
  corner_speed_kts : ℝ
  current_load_factor : ℝ

/-- `calculate_envelope` of the source.  The `weight_kg`, `tas_kts` and
`altitude_ft` parameters are unnamed in the source ("reserved for future
calculations") and unused. -/
def calculate_envelope (weight_kg bank_deg ias_kts tas_kts mach altitude_ft
    vso_kts vne_kts mmo : ℝ) : EnvelopeMargins :=
  let bank_rad := bank_deg * DEG_TO_RAD
  let load_factor := 1 / Real.cos bank_rad
  let vs_current := vso_kts * Real.sqrt load_factor
  let stall_margin_pct :=
    if vs_current > 0 then ((ias_kts - vs_current) / vs_current) * 100 else 100
  let vmo_margin_pct :=
    if vne_kts > 0 then ((vne_kts - ias_kts) / vne_kts) * 100 else 100
  let mmo_margin_pct :=
    if mmo > 0 then ((mmo - mach) / mmo) * 100 else 100
  { stall_margin_pct := stall_margin_pct
    vmo_margin_pct := vmo_margin_pct
    mmo_margin_pct := mmo_margin_pct
    min_margin_pct := min (min stall_margin_pct vmo_margin_pct) mmo_margin_pct
    corner_speed_kts := vso_kts * Real.sqrt 2.5
    current_load_factor := load_factor }

/-- The `EnergyTrend` enum of the source. -/
inductive EnergyTrend where
  | Decreasing
  | Stable
  | Increasing
deriving DecidableEq

/-- The `EnergyData` struct of the source. -/
structure EnergyData where
  specific_energy_ft : ℝ
  specific_energy_rate : ℝ
  trend : EnergyTrend

/-- `calculate_energy` of the source. -/
def calculate_energy (tas_kts altitude_ft vs_fpm : ℝ) : EnergyData :=
  let v_ms := tas_kts * KTS_TO_MS
  let h_m := altitude_ft * FT_TO_M
  let ke_m := (v_ms * v_ms) / (2 * GRAVITY)
  let specific_energy_m := ke_m + h_m
  { specific_energy_ft := specific_energy_m * M_TO_FT
    specific_energy_rate := vs_fpm
    trend :=
      if vs_fpm > 50 then EnergyTrend.Increasing
      else if vs_fpm < -50 then EnergyTrend.Decreasing
      else EnergyTrend.Stable }

/-- The `GlideData` struct of the source. -/
structure GlideData where
  max_range_nm : ℝ
  max_range_with_wind_nm : ℝ
  glide_ld : ℝ
  best_glide_speed_kts : ℝ

/-- `calculate_glide_reach` of the source (the L/D field the source calls
its glide ratio is named `glide_ld` here).  The `tas_kts` and `weight_kg`
parameters are unnamed in the source ("reserved") and unused. -/
def calculate_glide_reach (agl_ft tas_kts weight_kg headwind_kts : ℝ) : GlideData :=
  let gr : ℝ := 12
  let best_glide_speed_kts : ℝ := 75
  let altitude_nm := agl_ft / 6076
  let max_range_nm := altitude_nm * gr
  let wind_factor :=
    if best_glide_speed_kts > 0 then 1 - headwind_kts / best_glide_speed_kts else 1
  let max_range_with_wind_nm := max_range_nm * wind_factor
  { max_range_nm := max_range_nm
    max_range_with_wind_nm :=
      if max_range_with_wind_nm < 0 then 0 else max_range_with_wind_nm
    glide_ld := gr
    best_glide_speed_kts := best_glide_speed_kts }

/-- Maximum element of a list of reals, as the spec words it ("max of
history"); meaningful for non-empty lists, `0` for the empty list. -/
def list_max_claim : List ℝ → ℝ
  | [] => 0
  | x :: xs => xs.foldl max x

/-- Gust factor exactly as claim C3 words it: `0` on an empty history,
otherwise `(max of history) - (mean of history)`. -/
def claim_gust (ias_history : List ℝ) : ℝ :=
  if ias_history.isEmpty then 0
  else list_max_claim ias_history - ias_history.sum / ias_history.length

end

noncomputable section

/-- East component of "ground vector minus air vector", as the spec words
it (speed at a bearing, east = sin). -/
def claim_wind_x (tas_kts gs_kts heading_deg track_deg : ℝ) : ℝ :=
  gs_kts * Real.sin (track_deg * (Real.pi / 180)) -
    tas_kts * Real.sin (heading_deg * (Real.pi / 180))

/-- North component of "ground vector minus air vector", as the spec words
it (speed at a bearing, north = cos). -/
def claim_wind_y (tas_kts gs_kts heading_deg track_deg : ℝ) : ℝ :=
  gs_kts * Real.cos (track_deg * (Real.pi / 180)) -
    tas_kts * Real.cos (heading_deg * (Real.pi / 180))

end

/-- Claim C1: for every true airspeed, ground speed, heading and track,
`calculate_wind_vector` reports wind speed equal to the magnitude of the
wind vector (ground vector minus air vector), direction-from equal to
`normalize_angle (atan2 x y)` in degrees rotated by 180, and, with
relative bearing `direction_from + 180 - track`, headwind
`-speed * cos` and crosswind `speed * sin` of that bearing in radians. -/
theorem wind_vector_formulas (tas_kts gs_kts heading_deg track_deg : ℝ)
    (hist : List ℝ) :
    (calculate_wind_vector tas_kts gs_kts heading_deg track_deg hist).speed_kts =
      Real.sqrt (claim_wind_x tas_kts gs_kts heading_deg track_deg *
          claim_wind_x tas_kts gs_kts heading_deg track_deg +
        claim_wind_y tas_kts gs_kts heading_deg track_deg *
          claim_wind_y tas_kts gs_kts heading_deg track_deg) ∧
    (calculate_wind_vector tas_kts gs_kts heading_deg track_deg hist).direction_from =
      normalize_angle (atan2 (claim_wind_x tas_kts gs_kts heading_deg track_deg)
        (claim_wind_y tas_kts gs_kts heading_deg track_deg) * (180 / Real.pi) + 180) ∧
    (calculate_wind_vector tas_kts gs_kts heading_deg track_deg hist).headwind =
      -(calculate_wind_vector tas_kts gs_kts heading_deg track_deg hist).speed_kts *
        Real.cos (((calculate_wind_vector tas_kts gs_kts heading_deg track_deg
          hist).direction_from + 180 - track_deg) * (Real.pi / 180)) ∧
    (calculate_wind_vector tas_kts gs_kts heading_deg track_deg hist).crosswind =
      (calculate_wind_vector tas_kts gs_kts heading_deg track_deg hist).speed_kts *
        Real.sin (((calculate_wind_vector tas_kts gs_kts heading_deg track_deg
          hist).direction_from + 180 - track_deg) * (Real.pi / 180)) := by
  refine ⟨?_, ?_, ?_, ?_⟩ <;>
    simp only [calculate_wind_vector, claim_wind_x, claim_wind_y, Vector2D.sub,
      Vector2D.magnitude, DEG_TO_RAD, RAD_TO_DEG]

/-- Claim C2: `calculate_envelope` reports the stall margin
`(IAS - Vs_n)/Vs_n * 100` when `Vs_n = Vs_1g * sqrt(1/cos bank)` is
positive and `100` otherwise, the VMO margin `(Vne - IAS)/Vne * 100` when
`Vne > 0` and `100` otherwise, the MMO margin `(Mmo - Mach)/Mmo * 100`
when `Mmo > 0` and `100` otherwise, and the binding margin as the minimum
of the three. -/
theorem envelope_margin_formulas (weight_kg bank_deg ias_kts tas_kts mach
    altitude_ft vso_kts vne_kts mmo : ℝ) :
    ((calculate_envelope weight_kg bank_deg ias_kts tas_kts mach altitude_ft
        vso_kts vne_kts mmo).stall_margin_pct =
      if vso_kts * Real.sqrt (1 / Real.cos (bank_deg * (Real.pi / 180))) > 0 then
        ((ias_kts - vso_kts * Real.sqrt (1 / Real.cos (bank_deg * (Real.pi / 180)))) /
          (vso_kts * Real.sqrt (1 / Real.cos (bank_deg * (Real.pi / 180))))) * 100
      else 100) ∧
    ((calculate_envelope weight_kg bank_deg ias_kts tas_kts mach altitude_ft
        vso_kts vne_kts mmo).vmo_margin_pct =
      if vne_kts > 0 then ((vne_kts - ias_kts) / vne_kts) * 100 else 100) ∧
    ((calculate_envelope weight_kg bank_deg ias_kts tas_kts mach altitude_ft
        vso_kts vne_kts mmo).mmo_margin_pct =
      if mmo > 0 then ((mmo - mach) / mmo) * 100 else 100) ∧
    (calculate_envelope weight_kg bank_deg ias_kts tas_kts mach altitude_ft
        vso_kts vne_kts mmo).min_margin_pct =
      min (min
        (calculate_envelope weight_kg bank_deg ias_kts tas_kts mach altitude_ft
          vso_kts vne_kts mmo).stall_margin_pct
        (calculate_envelope weight_kg bank_deg ias_kts tas_kts mach altitude_ft
          vso_kts vne_kts mmo).vmo_margin_pct)
        (calculate_envelope weight_kg bank_deg ias_kts tas_kts mach altitude_ft
          vso_kts vne_kts mmo).mmo_margin_pct := by
  refine ⟨?_, ?_, ?_, ?_⟩ <;> simp only [calculate_envelope, DEG_TO_RAD]

/-- Claim C5: `calculate_energy` reports specific energy height
`v²/(2g) + altitude` under the source's unit conversions, a specific
energy rate equal to the vertical speed unchanged, and a trend that is
Increasing exactly when the rate exceeds +50, Decreasing exactly when it
is below -50, and Stable otherwise. -/
theorem energy_formulas (tas_kts altitude_ft vs_fpm : ℝ) :
    (calculate_energy tas_kts altitude_ft vs_fpm).specific_energy_ft =
      ((tas_kts * KTS_TO_MS) * (tas_kts * KTS_TO_MS) / (2 * GRAVITY) +
        altitude_ft * FT_TO_M) * M_TO_FT ∧
    (calculate_energy tas_kts altitude_ft vs_fpm).specific_energy_rate = vs_fpm ∧
    ((calculate_energy tas_kts altitude_ft vs_fpm).trend = EnergyTrend.Increasing ↔
      50 < vs_fpm) ∧
    ((calculate_energy tas_kts altitude_ft vs_fpm).trend = EnergyTrend.Decreasing ↔
      vs_fpm < -50) ∧
    ((calculate_energy tas_kts altitude_ft vs_fpm).trend = EnergyTrend.Stable ↔
      -50 ≤ vs_fpm ∧ vs_fpm ≤ 50) := by
  refine ⟨rfl, rfl, ?_, ?_, ?_⟩ <;>
    · simp only [calculate_energy]
      split_ifs with h1 h2 <;> simp_all <;> linarith

/-- Claim C10: the output of `calculate_envelope` does not depend on its
reserved `weight_kg`, `tas_kts` or `altitude_ft` arguments, and the output
of `calculate_glide_reach` does not depend on its reserved `tas_kts` or
`weight_kg` arguments. -/
theorem reserved_params_no_influence (w1 w2 t1 t2 a1 a2 bank_deg ias_kts mach
    vso_kts vne_kts mmo agl_ft t3 t4 w3 w4 headwind_kts : ℝ) :
    calculate_envelope w1 bank_deg ias_kts t1 mach a1 vso_kts vne_kts mmo =
      calculate_envelope w2 bank_deg ias_kts t2 mach a2 vso_kts vne_kts mmo ∧
    calculate_glide_reach agl_ft t3 w3 headwind_kts =
      calculate_glide_reach agl_ft t4 w4 headwind_kts :=
  ⟨rfl, rfl⟩

theorem code_max_step (m v : ℝ) : (if v > m then v else m) = max m v := by
  rcases le_or_lt v m with h | h
  · rw [if_neg (not_lt.mpr h), max_eq_left h]
  · rw [if_pos h, max_eq_right h.le]

theorem foldl_code_max (l : List ℝ) (c : ℝ) :
    l.foldl (fun max_ias v => if v > max_ias then v else max_ias) c =
      l.foldl max c := by
  induction l generalizing c with
  | nil => rfl
  | cons x xs ih =>
    rw [List.foldl_cons, List.foldl_cons, code_max_step, ih]

theorem foldl_max_max (l : List ℝ) (c a : ℝ) :
    l.foldl max (max c a) = max c (l.foldl max a) := by
  induction l generalizing a with
  | nil => rfl
  | cons x xs ih =>
    rw [List.foldl_cons, List.foldl_cons, max_assoc, ih]

theorem foldl_code_sum (l : List ℝ) (c : ℝ) :
    l.foldl (fun sum_ias v => sum_ias + v) c = c + l.sum := by
  induction l generalizing c with
  | nil => simp
  | cons x xs ih =>
    rw [List.foldl_cons, List.sum_cons, ih]
    ring

theorem gust_from_history_eq (l : List ℝ) :
    gust_from_history l =
      if l.isEmpty then 0 else max 0 (list_max_claim l) - l.sum / l.length := by
  cases l with
  | nil => rfl
  | cons x xs =>
    unfold gust_from_history
    have hmax :
        List.foldl (fun max_ias v => if v > max_ias then v else max_ias) 0 (x :: xs) =
          max 0 (list_max_claim (x :: xs)) := by
      rw [foldl_code_max, List.foldl_cons, foldl_max_max]
      rfl
    have hsum :
        List.foldl (fun sum_ias v => sum_ias + v) 0 (x :: xs) = (x :: xs).sum := by
      rw [foldl_code_sum, zero_add]
    rw [hmax, hsum]

/-- Claim C3 (amended): the gust factor reported by `calculate_wind_vector`
is `0` for an empty history and otherwise
`max 0 (maximum of history) - mean of history` (the source's running
maximum starts at `0`); it equals the claim's
`(maximum of history) - (mean of history)` whenever the maximum of the
history is non-negative — in particular for every real airspeed history. -/
theorem gust_factor_amended (tas_kts gs_kts heading_deg track_deg : ℝ)
    (l : List ℝ) :
    ((calculate_wind_vector tas_kts gs_kts heading_deg track_deg l).gust_factor =
      if l.isEmpty then 0 else max 0 (list_max_claim l) - l.sum / l.length) ∧
    (l ≠ [] → 0 ≤ list_max_claim l →
      (calculate_wind_vector tas_kts gs_kts heading_deg track_deg l).gust_factor =
        list_max_claim l - l.sum / l.length) := by
  have hg : (calculate_wind_vector tas_kts gs_kts heading_deg track_deg l).gust_factor =
      gust_from_history l := rfl
  constructor
  · rw [hg, gust_from_history_eq]
  · intro hne hmax
    rw [hg, gust_from_history_eq, if_neg (by simpa [List.isEmpty_iff] using hne),
      max_eq_right hmax]

/-- Witness for C3 (amended) at the concrete history `[150, 160]`: the
maximum is non-negative, and the gust factor is `160 - 310/2 = 5`. -/
theorem gust_factor_amended_witness :
    (calculate_wind_vector 0 0 0 0 [(150 : ℝ), 160]).gust_factor = 5 := by
  have h := (gust_factor_amended 0 0 0 0 [(150 : ℝ), 160]).2 (by simp)
    (by norm_num [list_max_claim, List.foldl_cons, max_def])
  rw [h]
  norm_num [list_max_claim, List.foldl_cons, max_def]

/-- Counterexample to C3 as stated: on the history `[-1]` the source
reports gust factor `0 - (-1) = 1` (its running maximum starts at `0`),
while the claim's `(max of history) - (mean of history)` is `0`. -/
theorem gust_factor_claim_cex :
    (calculate_wind_vector 0 0 0 0 [(-1 : ℝ)]).gust_factor ≠
      claim_gust [(-1 : ℝ)] := by
  have hg : (calculate_wind_vector 0 0 0 0 [(-1 : ℝ)]).gust_factor =
      gust_from_history [(-1 : ℝ)] := rfl
  rw [hg]
  unfold gust_from_history claim_gust list_max_claim
  norm_num

/-- Claim C4: the wind-adjusted glide range equals
`still-air range * (1 - headwind/best_glide_speed)` when that product is
non-negative and `0` otherwise; it is never negative, and with headwind at
or above the best-glide speed `75` and non-negative still-air range it is
exactly `0`. -/
theorem glide_wind_clamp (agl_ft tas_kts weight_kg headwind_kts : ℝ) :
    ((calculate_glide_reach agl_ft tas_kts weight_kg headwind_kts).max_range_with_wind_nm =
      if 0 ≤ (calculate_glide_reach agl_ft tas_kts weight_kg headwind_kts).max_range_nm *
          (1 - headwind_kts / 75) then
        (calculate_glide_reach agl_ft tas_kts weight_kg headwind_kts).max_range_nm *
          (1 - headwind_kts / 75)
      else 0) ∧
    0 ≤ (calculate_glide_reach agl_ft tas_kts weight_kg headwind_kts).max_range_with_wind_nm ∧
    (75 ≤ headwind_kts →
      0 ≤ (calculate_glide_reach agl_ft tas_kts weight_kg headwind_kts).max_range_nm →
      (calculate_glide_reach agl_ft tas_kts weight_kg headwind_kts).max_range_with_wind_nm =
        0) := by
  have h75p : (75 : ℝ) > 0 := by norm_num
  simp only [calculate_glide_reach, if_pos h75p]
  refine ⟨?_, ?_, ?_⟩
  · rcases lt_or_le (agl_ft / 6076 * 12 * (1 - headwind_kts / 75)) 0 with h | h
    · rw [if_pos h, if_neg (not_le.mpr h)]
    · rw [if_neg (not_lt.mpr h), if_pos h]
  · rcases lt_or_le (agl_ft / 6076 * 12 * (1 - headwind_kts / 75)) 0 with h | h
    · rw [if_pos h]
    · rw [if_neg (not_lt.mpr h)]
      exact h
  · intro h75 hr
    have hf : 1 - headwind_kts / 75 ≤ 0 := by
      have : (1 : ℝ) ≤ headwind_kts / 75 := by
        rw [le_div_iff₀ (by norm_num : (0:ℝ) < 75)]
        linarith
      linarith
    have hp : agl_ft / 6076 * 12 * (1 - headwind_kts / 75) ≤ 0 :=
      mul_nonpos_of_nonneg_of_nonpos hr hf
    rcases lt_or_le (agl_ft / 6076 * 12 * (1 - headwind_kts / 75)) 0 with h | h
    · rw [if_pos h]
    · rw [if_neg (not_lt.mpr h)]
      linarith

/-- Witness for C4 at `agl_ft = 6076`, `headwind_kts = 80 ≥ 75`: the
wind-adjusted range is exactly `0`. -/
theorem glide_wind_clamp_witness :
    (calculate_glide_reach 6076 0 0 80).max_range_with_wind_nm = 0 := by
  refine (glide_wind_clamp 6076 0 0 80).2.2 (by norm_num) ?_
  norm_num [calculate_glide_reach]

/-- Claim C6: `normalize_angle` always lands in `[0, 360)` and is
idempotent. -/
theorem normalize_angle_range_idempotent (x : ℝ) :
    0 ≤ normalize_angle x ∧ normalize_angle x < 360 ∧
      normalize_angle (normalize_angle x) = normalize_angle x := by
  have h1 := normalize_angle_spec x
  refine ⟨h1 ▸ mod360_nonneg x, h1 ▸ mod360_lt x, ?_⟩
  rw [h1, normalize_angle_spec, mod360_eq_self _ (mod360_nonneg x) (mod360_lt x)]

/-- Claim C7 (amended): every core computation of the engine is total;
`normalize_angle` terminates on every real input and computes the
closed-form reduction `a - 360 * ⌊a/360⌋`, but it does so by correction
loops whose total iteration count is input-dependent, bounded by
`⌈|a|/360⌉` (not by a single modulo plus one corrective addition). -/
theorem normalize_angle_termination_bound (a : ℝ) :
    normalize_angle a = a - 360 * ⌊a / 360⌋ ∧
      norm_steps a ≤ (⌈|a| / 360⌉).toNat := by
  constructor
  · rw [normalize_angle_spec]
    rfl
  · rw [norm_steps_spec]
    rcases lt_or_le a 0 with h | h
    · have h1 : add_loop a = mod360 a := by rw [add_loop_spec, if_pos h]
      have h2 : ⌊add_loop a / 360⌋ = 0 := by
        rw [h1]
        apply Int.floor_eq_zero_iff.mpr
        constructor
        · exact div_nonneg (mod360_nonneg a) (by norm_num)
        · rw [div_lt_one (by norm_num : (0:ℝ) < 360)]
          exact mod360_lt a
      rw [h2, abs_of_neg h]
      simp
    · have h1 : add_loop a = a := by rw [add_loop_spec, if_neg (not_lt.mpr h)]
      have h2 : ⌈-a / 360⌉ ≤ 0 :=
        Int.ceil_le.mpr (by
          push_cast
          apply div_nonpos_of_nonpos_of_nonneg _ (by norm_num)
          linarith)
      have h3 : ⌊a / 360⌋ ≤ ⌈a / 360⌉ := Int.floor_le_ceil _
      rw [h1, abs_of_nonneg h]
      omega

/-- Counterexample to C7 as stated: the correction loops of
`normalize_angle` run `3` iterations on input `-1000` and `0` iterations
on input `10` — the iteration count varies with the input and exceeds one
corrective addition. -/
theorem normalize_angle_steps_cex :
    norm_steps (-1000 : ℝ) = 3 ∧ norm_steps (10 : ℝ) = 0 := by
  constructor
  · rw [norm_steps_spec]
    have hceil : ⌈-(-1000 : ℝ) / 360⌉ = 3 := by
      rw [Int.ceil_eq_iff]
      push_cast
      norm_num
    have hloop : add_loop (-1000 : ℝ) = 80 := by
      rw [add_loop_spec, if_pos (by norm_num)]
      unfold mod360
      rw [show ⌊(-1000 : ℝ) / 360⌋ = -3 by
        rw [Int.floor_eq_iff]
        push_cast
        constructor <;> norm_num]
      norm_num
    rw [hceil, hloop]
    rw [show ⌊(80 : ℝ) / 360⌋ = 0 by
      rw [Int.floor_eq_iff]
      push_cast
      constructor <;> norm_num]
    rfl
  · rw [norm_steps_spec]
    have hceil : ⌈-(10 : ℝ) / 360⌉ = 0 := by
      rw [Int.ceil_eq_iff]
      push_cast
      norm_num
    have hloop : add_loop (10 : ℝ) = 10 := by
      rw [add_loop_spec, if_neg (by norm_num)]
    rw [hceil, hloop]
    rw [show ⌊(10 : ℝ) / 360⌋ = 0 by
      rw [Int.floor_eq_iff]
      push_cast
      constructor <;> norm_num]
    rfl

/-- Claim C8 (amended): for bank angles `0 < b1 < b2 < 90` the load factor
`1/cos(bank)` computed by `calculate_envelope` is strictly increasing, and
for fixed non-negative IAS and fixed positive 1g stall speed the stall
margin is monotonically decreasing along that increase of the load
factor. -/
theorem envelope_monotonicity (weight_kg tas_kts mach altitude_ft vne_kts mmo
    ias_kts vso_kts b1 b2 : ℝ) (hb0 : 0 < b1) (hb12 : b1 < b2) (hb90 : b2 < 90) :
    (calculate_envelope weight_kg b1 ias_kts tas_kts mach altitude_ft vso_kts
        vne_kts mmo).current_load_factor <
      (calculate_envelope weight_kg b2 ias_kts tas_kts mach altitude_ft vso_kts
        vne_kts mmo).current_load_factor ∧
    (0 ≤ ias_kts → 0 < vso_kts →
      (calculate_envelope weight_kg b2 ias_kts tas_kts mach altitude_ft vso_kts
          vne_kts mmo).stall_margin_pct ≤
        (calculate_envelope weight_kg b1 ias_kts tas_kts mach altitude_ft vso_kts
          vne_kts mmo).stall_margin_pct) := by
  have hpi : (0:ℝ) < Real.pi / 180 := by positivity
  have hr1pos : 0 < b1 * (Real.pi / 180) := mul_pos hb0 hpi
  have hr12 : b1 * (Real.pi / 180) < b2 * (Real.pi / 180) :=
    mul_lt_mul_of_pos_right hb12 hpi
  have hr2lt : b2 * (Real.pi / 180) < Real.pi / 2 := by
    have h := mul_lt_mul_of_pos_right hb90 hpi
    have h90 : (90 : ℝ) * (Real.pi / 180) = Real.pi / 2 := by ring
    linarith [h90 ▸ h]
  have hc2pos : 0 < Real.cos (b2 * (Real.pi / 180)) :=
    Real.cos_pos_of_mem_Ioo ⟨by linarith [Real.pi_pos], hr2lt⟩
  have hc1pos : 0 < Real.cos (b1 * (Real.pi / 180)) :=
    Real.cos_pos_of_mem_Ioo ⟨by linarith [Real.pi_pos], by linarith⟩
  have hcc : Real.cos (b2 * (Real.pi / 180)) < Real.cos (b1 * (Real.pi / 180)) :=
    Real.cos_lt_cos_of_nonneg_of_le_pi hr1pos.le (by linarith [Real.pi_pos]) hr12
  have hload : 1 / Real.cos (b1 * (Real.pi / 180)) <
      1 / Real.cos (b2 * (Real.pi / 180)) :=
    one_div_lt_one_div_of_lt hc2pos hcc
  constructor
  · simp only [calculate_envelope, DEG_TO_RAD]
    exact hload
  · intro hias hvso
    have hn1pos : 0 < 1 / Real.cos (b1 * (Real.pi / 180)) := by positivity
    have hsq12 : Real.sqrt (1 / Real.cos (b1 * (Real.pi / 180))) <
        Real.sqrt (1 / Real.cos (b2 * (Real.pi / 180))) :=
      Real.sqrt_lt_sqrt hn1pos.le hload
    have hsq1pos : 0 < Real.sqrt (1 / Real.cos (b1 * (Real.pi / 180))) :=
      Real.sqrt_pos.mpr hn1pos
    have hs1pos : 0 < vso_kts * Real.sqrt (1 / Real.cos (b1 * (Real.pi / 180))) :=
      mul_pos hvso hsq1pos
    have hs2pos : 0 < vso_kts * Real.sqrt (1 / Real.cos (b2 * (Real.pi / 180))) :=
      mul_pos hvso (lt_trans hsq1pos hsq12)
    have hss : vso_kts * Real.sqrt (1 / Real.cos (b1 * (Real.pi / 180))) <
        vso_kts * Real.sqrt (1 / Real.cos (b2 * (Real.pi / 180))) :=
      mul_lt_mul_of_pos_left hsq12 hvso
    simp only [calculate_envelope, DEG_TO_RAD]
    rw [if_pos hs1pos, if_pos hs2pos]
    have key : (ias_kts - vso_kts * Real.sqrt (1 / Real.cos (b2 * (Real.pi / 180)))) /
          (vso_kts * Real.sqrt (1 / Real.cos (b2 * (Real.pi / 180)))) ≤
        (ias_kts - vso_kts * Real.sqrt (1 / Real.cos (b1 * (Real.pi / 180)))) /
          (vso_kts * Real.sqrt (1 / Real.cos (b1 * (Real.pi / 180)))) := by
      rw [div_le_div_iff₀ hs2pos hs1pos]
      nlinarith [mul_le_mul_of_nonneg_left hss.le hias]
    nlinarith [key]

/-- Witness for C8 (amended) at banks `30 < 60`, IAS `180 ≥ 0`, 1g stall
speed `50 > 0`. -/
theorem envelope_monotonicity_witness :
    (calculate_envelope 0 30 180 0 0 0 50 0 0).current_load_factor <
      (calculate_envelope 0 60 180 0 0 0 50 0 0).current_load_factor ∧
    (calculate_envelope 0 60 180 0 0 0 50 0 0).stall_margin_pct ≤
      (calculate_envelope 0 30 180 0 0 0 50 0 0).stall_margin_pct := by
  have h := envelope_monotonicity 0 0 0 0 0 0 180 50 30 60 (by norm_num)
    (by norm_num) (by norm_num)
  exact ⟨h.1, h.2 (by norm_num) (by norm_num)⟩

/-- Counterexample to C8 as stated: at fixed IAS `-100` and 1g stall speed
`50`, moving the bank from `45°` to `60°` (both in `(0°, 90°)`) increases
the load factor yet also increases the stall margin, so the stall margin
is not monotonically decreasing in the load factor for every fixed IAS. -/
theorem stall_margin_not_antitone_cex :
    (calculate_envelope 0 45 (-100) 0 0 0 50 0 0).stall_margin_pct <
      (calculate_envelope 0 60 (-100) 0 0 0 50 0 0).stall_margin_pct := by
  have h45 : Real.cos ((45 : ℝ) * DEG_TO_RAD) = Real.sqrt 2 / 2 := by
    rw [DEG_TO_RAD, show (45 : ℝ) * (Real.pi / 180) = Real.pi / 4 by ring,
      Real.cos_pi_div_four]
  have h60 : Real.cos ((60 : ℝ) * DEG_TO_RAD) = 1 / 2 := by
    rw [DEG_TO_RAD, show (60 : ℝ) * (Real.pi / 180) = Real.pi / 3 by ring,
      Real.cos_pi_div_three]
  have hs2pos : (0:ℝ) < Real.sqrt 2 := Real.sqrt_pos.mpr (by norm_num)
  have hload45 : (1 : ℝ) / (Real.sqrt 2 / 2) = Real.sqrt 2 := by
    rw [one_div_div]
    exact Real.div_sqrt
  have ha : (0:ℝ) < Real.sqrt (Real.sqrt 2) := Real.sqrt_pos.mpr hs2pos
  have hb : Real.sqrt (Real.sqrt 2) < Real.sqrt 2 := by
    have h2lt : Real.sqrt 2 < 2 := by
      have h4 : Real.sqrt 2 < Real.sqrt 4 := Real.sqrt_lt_sqrt (by norm_num) (by norm_num)
      rw [show (4:ℝ) = 2 ^ 2 by norm_num, Real.sqrt_sq (by norm_num)] at h4
      exact h4
    exact Real.sqrt_lt_sqrt hs2pos.le h2lt
  simp only [calculate_envelope, h45, h60, hload45]
  rw [show (1:ℝ) / (1/2) = 2 by norm_num]
  have hsq2 : Real.sqrt (2:ℝ) = Real.sqrt 2 := rfl
  have hvs45pos : (0:ℝ) < 50 * Real.sqrt (Real.sqrt 2) := by positivity
  have hvs60pos : (0:ℝ) < 50 * Real.sqrt 2 := by positivity
  rw [if_pos hvs45pos, if_pos hvs60pos]
  have key : (-100 - 50 * Real.sqrt (Real.sqrt 2)) / (50 * Real.sqrt (Real.sqrt 2)) <
      (-100 - 50 * Real.sqrt 2) / (50 * Real.sqrt 2) := by
    rw [div_lt_div_iff₀ hvs45pos hvs60pos]
    nlinarith [hb, ha, hs2pos]
  nlinarith [key]

/-- Claim C9: if heading equals track and TAS equals GS, the reported wind
speed is `0`, and the gust factor depends only on the IAS history, not on
the speed or angle inputs. -/
theorem wind_roundtrip (tas_kts gs_kts heading_deg track_deg tas2 gs2 hdg2
    trk2 : ℝ) (hist : List ℝ) (hh : heading_deg = track_deg)
    (hs : tas_kts = gs_kts) :
    (calculate_wind_vector tas_kts gs_kts heading_deg track_deg hist).speed_kts =
      0 ∧
    (calculate_wind_vector tas_kts gs_kts heading_deg track_deg hist).gust_factor =
      (calculate_wind_vector tas2 gs2 hdg2 trk2 hist).gust_factor := by
  subst hh hs
  refine ⟨?_, rfl⟩
  simp only [calculate_wind_vector, Vector2D.sub, Vector2D.magnitude, sub_self]
  norm_num

/-- Witness for C9 at TAS = GS = 100, heading = track = 90, empty
history. -/
theorem wind_roundtrip_witness :
    (calculate_wind_vector 100 100 90 90 ([] : List ℝ)).speed_kts = 0 ∧
    (calculate_wind_vector 100 100 90 90 ([] : List ℝ)).gust_factor =
      (calculate_wind_vector 5 7 11 13 ([] : List ℝ)).gust_factor :=
  wind_roundtrip 100 100 90 90 5 7 11 13 [] rfl rfl

end xplane_mfd.calc
